import Mathlib

/-!
Verification of the adaptive fetch/cache policy of the football-fixture
poller (`src/plugins/football_fixtures/football_fixtures.py`) and its web
consumer (`src/blueprints/main.py`, endpoint `get_football_fixture`).

Shallow embedding conventions:
* Wall-clock instants are integer seconds (`Int`); the calendar date of an
  instant is `dateOf t = t / 86400` (the several `datetime.now()` calls made
  inside one request are modelled as a single instant `now`, the code being
  single-threaded and sub-second).
* `timedelta(minutes=1)` is 60 seconds, `timedelta(hours=4, minutes=48)` is
  17280 seconds.
* Python `dict.get` chains over the upstream JSON payload are modelled with
  `Option` fields; absent keys are `none`.
* `datetime.fromisoformat(date_str.replace('Z', '+00:00')).astimezone(tz)`
  is abstracted as a parameter `pd : String → Option Int` (the parsed
  absolute timestamp, `none` when parsing raises), and
  `strftime "%d %b %H:%M"` as a parameter `fd : Int → String`.
* The per-league HTTP exchange (`requests.get` + `response.json()`) is a
  parameter `u : String → LeagueResp`; constructor `LeagueResp.exc` models
  an exception raised during the exchange (which the source lets propagate
  to the outer `try` of `get_next_or_live_fixture`), and
  `LeagueResp.status code nextEvent` models a completed response with the
  given HTTP status code and the parsed `data['team']['nextEvent']` list.
-/

namespace FF

/-- `hay` starts with `needle` (on character lists). -/
def charsStartWith : List Char → List Char → Bool
  | [], _ => true
  | _ :: _, [] => false
  | n :: ns, h :: hs => (n = h) && charsStartWith ns hs

/-- `needle` occurs contiguously in `hay` (on character lists). -/
def charsContain (ns : List Char) : List Char → Bool
  | [] => charsStartWith ns []
  | h :: hs => charsStartWith ns (h :: hs) || charsContain ns hs

/-- Python `needle in hay` substring test on strings. -/
def containsSub (hay needle : String) : Bool :=
  charsContain needle.data hay.data

/-- Calendar date (`datetime.date()`) of an instant, as a day index. -/
def dateOf (t : Int) : Int := t / 86400

/-- The `home_team` / `away_team` sub-dict of a formatted fixture. -/
structure TeamDisplay where
  name : String
  logo : String
deriving DecidableEq, Repr

/-- The dict returned by `_format_fixture` and stored in `cached_fixture`. -/
structure FixtureRecord where
  home_team : TeamDisplay
  away_team : TeamDisplay
  score : String
  /-- key `'status'`: the computed `status_display` string -/
  status : String
  is_live : Bool
  league : String
  match_date : Option Int
deriving DecidableEq, Repr

/-- `competitor['team']`: display name and list of logo `href`s. -/
structure TeamInfo where
  displayName : Option String
  logos : Option (List (Option String))
deriving DecidableEq, Repr

/-- One entry of `competition['competitors']`. -/
structure Competitor where
  homeAway : Option String
  team : Option TeamInfo
  score : Option String
deriving DecidableEq, Repr

/-- `competition['status']['type']`. -/
structure StatusTypeInfo where
  name : Option String
  shortDetail : Option String
deriving DecidableEq, Repr

/-- `competition['status']`. -/
structure CompStatus where
  type : Option StatusTypeInfo
  displayClock : Option String
  period : Option Int
deriving DecidableEq, Repr

/-- One entry of `event['competitions']`. -/
structure Competition where
  competitors : Option (List Competitor)
  status : Option CompStatus
  date : Option String
deriving DecidableEq, Repr

/-- An ESPN event (`data['team']['nextEvent'][i]`). -/
structure Event where
  competitions : Option (List Competition)
deriving DecidableEq, Repr

/-- `competition.get('status', {}).get('type', {}).get('name', 'STATUS_SCHEDULED')` -/
def statusName (c : Competition) : String :=
  ((c.status.bind (·.type)).bind (·.name)).getD "STATUS_SCHEDULED"

/-- `competition.get('status', {}).get('type', {}).get('shortDetail', '')` -/
def shortDetailOf (c : Competition) : String :=
  ((c.status.bind (·.type)).bind (·.shortDetail)).getD ""

/-- `competition.get('status', {}).get('displayClock', '')` -/
def displayClockOf (c : Competition) : String :=
  (c.status.bind (·.displayClock)).getD ""

/-- `competition.get('status', {}).get('period', 0)` -/
def periodOf (c : Competition) : Int :=
  (c.status.bind (·.period)).getD 0

/-- `competitor.get('team', {}).get('displayName', 'Unknown')` -/
def teamNameOf (cp : Competitor) : String :=
  (cp.team.bind (·.displayName)).getD "Unknown"

/-- the logo expression: first logo `href` when the `logos` list is truthy,
else the empty string -/
def logoOf (cp : Competitor) : String :=
  match cp.team.bind (·.logos) with
  | some (l :: _) => l.getD ""
  | _ => ""

/-- `competitor.get('score', '0')` -/
def scoreOf (cp : Competitor) : String := cp.score.getD "0"

/-- the `for competitor in competitors` loop assigning `home_team` /
`away_team` (a competitor whose `homeAway` is `'home'` overwrites the home
slot, any other competitor overwrites the away slot). -/
def homeAwayLoop (comps : List Competitor) : Option Competitor × Option Competitor :=
  comps.foldl
    (fun p cp => if cp.homeAway = some "home" then (some cp, p.2) else (p.1, some cp))
    (none, none)

/-- `status_type in ['STATUS_IN_PROGRESS', 'STATUS_HALFTIME', 'STATUS_END_PERIOD']` -/
def isLiveName (s : String) : Bool :=
  s = "STATUS_IN_PROGRESS" || s = "STATUS_HALFTIME" || s = "STATUS_END_PERIOD"

/-- a competitor value used only for the (unreachable under the length
guard) fallback of `List.getD`. -/
def emptyCompetitor : Competitor := ⟨none, none, none⟩

/-- The resolved `home_team` of the source (the loop result, with the
positional fallback `competitors[0]` when a slot stayed unassigned). -/
def homeOf (c : Competition) : Competitor :=
  match homeAwayLoop (c.competitors.getD []) with
  | (some h, some _) => h
  | _ => (c.competitors.getD []).getD 0 emptyCompetitor

/-- The resolved `away_team` (positional fallback `competitors[1]`). -/
def awayOf (c : Competition) : Competitor :=
  match homeAwayLoop (c.competitors.getD []) with
  | (some _, some a) => a
  | _ => (c.competitors.getD []).getD 1 emptyCompetitor

/-- The `Format status display` block of `_format_fixture`: the
`(match_date, status_display)` pair.  `pd`/`fd` abstract the ISO-date
parse and the `strftime` rendering (see the header comment). -/
def statusAndDate (pd : String → Option Int) (fd : Int → String)
    (c : Competition) : Option Int × String :=
  if isLiveName (statusName c) then
    if periodOf c = 1 then (none, displayClockOf c ++ "\x27 1H")
    else if periodOf c = 2 then (none, displayClockOf c ++ "\x27 2H")
    else if statusName c = "STATUS_HALFTIME" then (none, "HT")
    else (none, if shortDetailOf c ≠ "" then shortDetailOf c else "LIVE")
  else if statusName c = "STATUS_FINAL" then (none, "FT")
  else
    if c.date.getD "" ≠ "" then
      match pd (c.date.getD "") with
      | some d => (some d, fd d)
      | none => (none, if shortDetailOf c ≠ "" then shortDetailOf c else "Scheduled")
    else (none, if shortDetailOf c ≠ "" then shortDetailOf c else "Scheduled")

/-- `FootballFixtures._format_fixture(event, league_name)`.  Every
operation of the source body is total in the model (the date parse is the
`pd` parameter), so the method's own `except` branch is unreachable.  The
`not home_team or not away_team` truthiness test is modelled as the slots
being unassigned (competitor dicts in payloads are non-empty). -/
def format_fixture (pd : String → Option Int) (fd : Int → String)
    (ev : Event) (league_name : String) : Option FixtureRecord :=
  match ev.competitions with
  | none => none
  | some [] => none
  | some (competition :: _) =>
    if (competition.competitors.getD []).length < 2 then none
    else
      some {
        home_team := { name := teamNameOf (homeOf competition),
                       logo := logoOf (homeOf competition) }
        away_team := { name := teamNameOf (awayOf competition),
                       logo := logoOf (awayOf competition) }
        score := scoreOf (homeOf competition) ++ " - "
                  ++ scoreOf (awayOf competition)
        status := (statusAndDate pd fd competition).2
        is_live := isLiveName (statusName competition)
        league := league_name
        match_date := (statusAndDate pd fd competition).1 }

/-- The mutable attributes set in `FootballFixtures.__init__`. -/
structure PollerState where
  last_fetch_time : Option Int
  cached_fixture : Option FixtureRecord
  fetch_count_today : Nat
  last_fetch_date : Option Int
deriving DecidableEq, Repr

/-- The state right after `__init__` (`None`/`None`/`0`/`None`). -/
def initState : PollerState :=
  { last_fetch_time := none, cached_fixture := none
    fetch_count_today := 0, last_fetch_date := none }

/-- `FootballFixtures._is_game_day(fixture)` (all operations total, so its
`except` branch is unreachable in the model). -/
def is_game_day (fx : FixtureRecord) (now : Int) : Bool :=
  if fx.is_live then true
  else if containsSub fx.status "FT" || containsSub fx.status "LIVE" then true
  else match fx.match_date with
    | some d => dateOf d = dateOf now
    | none => false

/-- `self.last_fetch_time and (now - self.last_fetch_time) < bound` -/
def elapsedLt (s : PollerState) (now bound : Int) : Bool :=
  match s.last_fetch_time with
  | some t => now - t < bound
  | none => false

/-- The day-rollover reset at the top of `should_fetch`. -/
def resetState (s : PollerState) (now : Int) : PollerState :=
  if s.last_fetch_date = some (dateOf now) then s
  else { s with fetch_count_today := 0, last_fetch_date := some (dateOf now) }

/-- The decision part of `should_fetch` on the rollover-reset state `s1`:
the method returns `False` exactly on its two early-return paths (quota
exhausted, or too little time elapsed for the current classification) and
otherwise falls through to `return True`. -/
def sfDecide (s1 : PollerState) (now : Int) : Bool :=
  match s1.cached_fixture with
  | none => true
  | some fx =>
    if fx.is_live || is_game_day fx now then
      !(elapsedLt s1 now 60)
    else
      if 5 ≤ s1.fetch_count_today then false
      else !(elapsedLt s1 now 17280)

/-- `FootballFixtures.should_fetch()`, returning the decision together with
the (possibly rollover-reset) state. -/
def should_fetch (s : PollerState) (now : Int) : Bool × PollerState :=
  (sfDecide (resetState s now) now, resetState s now)

/-- One modelled per-league HTTP exchange (see header comment). -/
inductive LeagueResp where
  | exc : LeagueResp
  | status : Int → Option (List Event) → LeagueResp
deriving DecidableEq

/-- `self.leagues` from `__init__`. -/
def leagues : List (String × String) :=
  [("eng.1", "Premier League"), ("uefa.champions", "Champions League"),
   ("eng.league_cup", "Carabao Cup"), ("eng.fa", "FA Cup")]

/-- The `for league_id, league_name in self.leagues` collection loop of
`get_next_or_live_fixture`: non-200 responses skip the league
(`continue`); an exception aborts the whole poll (`Except.error`, caught
by the outer handler); a 200 response contributes the formatted first
`nextEvent` entry when present and well-formed. -/
def collectFixtures (pd : String → Option Int) (fd : Int → String)
    (u : String → LeagueResp) :
    List (String × String) → Except Unit (List FixtureRecord)
  | [] => .ok []
  | (league_id, league_name) :: rest =>
    match u league_id with
    | .exc => .error ()
    | .status code nextEvent =>
      if code ≠ 200 then collectFixtures pd fd u rest
      else
        match collectFixtures pd fd u rest with
        | .error e => .error e
        | .ok fs =>
          match nextEvent with
          | some (e :: _) =>
            match format_fixture pd fd e league_name with
            | some fx => .ok (fx :: fs)
            | none => .ok fs
          | _ => .ok fs

/-- Python `min(w :: ws, key := key)`: leftmost element with minimal key
(later elements replace the running best only on a strictly smaller key). -/
def pyMin {α : Type} (key : α → Nat) (b : α) : List α → α
  | [] => b
  | y :: ys => pyMin key (if key y < key b then y else b) ys

/-- `abs((f['match_date'] - now).total_seconds())` -/
def fixKey (now : Int) (f : FixtureRecord) : Nat :=
  (f.match_date.getD 0 - now).natAbs

/-- The selection block of `get_next_or_live_fixture` over the collected
`all_fixtures` (`none` when the list is empty): first live candidate if
any, else the candidate with `match_date` nearest to `now`, else the first
candidate. -/
def selectFixture (now : Int) : List FixtureRecord → Option FixtureRecord
  | [] => none
  | first :: rest =>
    match (first :: rest).filter (·.is_live) with
    | live :: _ => some live
    | [] =>
      match (first :: rest).filter (fun f => f.match_date.isSome) with
      | [] => some first
      | w :: ws => some (pyMin (fixKey now) w ws)

/-- The `Update fetch tracking` lines (`self.last_fetch_time =
datetime.now(); self.fetch_count_today += 1`), run right after
`should_fetch` passes. -/
def postFetchState (s1 : PollerState) (now : Int) : PollerState :=
  { s1 with last_fetch_time := some now,
            fetch_count_today := s1.fetch_count_today + 1 }

/-- `FootballFixtures.get_next_or_live_fixture()`: returns the value handed
to the caller together with the post-call state.  All exception sources of
the body are explicit (`LeagueResp.exc` through `collectFixtures`), so the
outer `except` branch is the `.error` case. -/
def get_next_or_live_fixture (pd : String → Option Int) (fd : Int → String)
    (u : String → LeagueResp) (s : PollerState) (now : Int) :
    Option FixtureRecord × PollerState :=
  if (should_fetch s now).1 then
    match collectFixtures pd fd u leagues with
    | .error _ => ((postFetchState (should_fetch s now).2 now).cached_fixture,
                   postFetchState (should_fetch s now).2 now)
    | .ok all_fixtures =>
      match selectFixture now all_fixtures with
      | some sel => (some sel, { postFetchState (should_fetch s now).2 now with
                                 cached_fixture := some sel })
      | none => ((postFetchState (should_fetch s now).2 now).cached_fixture,
                 postFetchState (should_fetch s now).2 now)
  else ((should_fetch s now).2.cached_fixture, (should_fetch s now).2)

/-- The web endpoint `get_football_fixture` in `src/blueprints/main.py`:
each request constructs a brand-new `FootballFixtures(timezone=tz)` and
calls `get_next_or_live_fixture()` on it, so every request runs on
`initState`. -/
def get_football_fixture (pd : String → Option Int) (fd : Int → String)
    (u : String → LeagueResp) (now : Int) : Option FixtureRecord × PollerState :=
  get_next_or_live_fixture pd fd u initState now

/-- `True` iff the modelled exchange counts as an upstream failure for its
league: an exception, or a completed response with a non-200 status. -/
def failedResp : LeagueResp → Bool
  | .exc => true
  | .status code _ => code ≠ 200

/-- The cached fixture exists and is classified dormant at `now`
(not live and not a game day). -/
def dormantAt (s : PollerState) (now : Int) : Bool :=
  match s.cached_fixture with
  | some fx => !fx.is_live && !is_game_day fx now
  | none => false

/-- Number of polls of a call trace that pass `should_fetch` (i.e. perform
actual upstream fetch attempts), threading the state through
`get_next_or_live_fixture`. -/
def countFetches (pd : String → Option Int) (fd : Int → String) :
    List (Int × (String → LeagueResp)) → PollerState → Nat
  | [], _ => 0
  | (now, u) :: rest, s =>
    (if (should_fetch s now).1 then 1 else 0) +
      countFetches pd fd rest (get_next_or_live_fixture pd fd u s now).2

/-- The cached fixture is present and dormant at every call of the trace. -/
def dormantTrace (pd : String → Option Int) (fd : Int → String) :
    List (Int × (String → LeagueResp)) → PollerState → Bool
  | [], _ => true
  | (now, u) :: rest, s =>
    dormantAt s now &&
      dormantTrace pd fd rest (get_next_or_live_fixture pd fd u s now).2

/-! ## Concrete inputs used by witnesses and counterexamples -/

def digitVal (c : Char) : Option Nat :=
  if '0' ≤ c ∧ c ≤ '9' then some (c.toNat - 48) else none

def digitsAux : List Char → Nat → Option Nat
  | [], acc => some acc
  | c :: cs, acc =>
    match digitVal c with
    | some d => digitsAux cs (acc * 10 + d)
    | none => none

/-- A concrete stand-in for the abstracted ISO-date parser: parses an
optionally negated decimal seconds value, `none` otherwise (mirroring
that parsing either yields a timestamp or raises). -/
def pd0 : String → Option Int := fun s =>
  match s.data with
  | [] => none
  | '-' :: ds => (digitsAux ds 0).map (fun n => -(n : Int))
  | ds => (digitsAux ds 0).map (fun n => (n : Int))

/-- A concrete stand-in for the abstracted `strftime` rendering. -/
def fd0 : Int → String := fun _ => "15 Mar 14:00"

/-- An upstream for which every exchange raises. -/
def uExc : String → LeagueResp := fun _ => .exc

def cpHome : Competitor :=
  ⟨some "home", some ⟨some "Chelsea", some [some "hlogo"]⟩, some "1"⟩

def cpAway : Competitor :=
  ⟨some "away", some ⟨some "Arsenal", none⟩, some "0"⟩

/-- A halftime event as ESPN reports it mid-match: `period` is `1`. -/
def compHT : Competition :=
  { competitors := some [cpHome, cpAway],
    status := some ⟨some ⟨some "STATUS_HALFTIME", some "HT"⟩, some "45:00", some 1⟩,
    date := some "1000" }

def evHT : Event := ⟨some [compHT]⟩

/-- A halftime event whose `period` field is `0`. -/
def compHT0 : Competition :=
  { competitors := some [cpHome, cpAway],
    status := some ⟨some ⟨some "STATUS_HALFTIME", some "HT"⟩, some "45:00", some 0⟩,
    date := some "1000" }

def evHT0 : Event := ⟨some [compHT0]⟩

def compLive : Competition :=
  { competitors := some [cpHome, cpAway],
    status := some ⟨some ⟨some "STATUS_IN_PROGRESS", some "Live"⟩, some "60:00", some 2⟩,
    date := none }

def evLive : Event := ⟨some [compLive]⟩

def compSched (d : String) : Competition :=
  { competitors := some [cpHome, cpAway],
    status := some ⟨some ⟨some "STATUS_SCHEDULED", some "TBD"⟩, none, none⟩,
    date := some d }

def evSched (d : String) : Event := ⟨some [compSched d]⟩

/-- A scheduled event carrying no date at all. -/
def compNoDate : Competition :=
  { competitors := some [cpHome, cpAway],
    status := some ⟨some ⟨some "STATUS_SCHEDULED", some "TBD"⟩, none, none⟩,
    date := none }

def evNoDate : Event := ⟨some [compNoDate]⟩

/-- A scheduled event whose date string does not parse. -/
def compBadDate : Competition :=
  { competitors := some [cpHome, cpAway],
    status := some ⟨some ⟨some "STATUS_SCHEDULED", some "TBD"⟩, none, none⟩,
    date := some "notadate" }

def evBadDate : Event := ⟨some [compBadDate]⟩

/-- Upstream: scheduled fixture in the first league, live fixture in the
second, failures elsewhere. -/
def upLive : String → LeagueResp := fun lid =>
  if lid = "eng.1" then .status 200 (some [evSched "10800"])
  else if lid = "uefa.champions" then .status 200 (some [evLive])
  else .status 404 none

/-- Upstream: three scheduled fixtures at `now + 3h`, `now - 1h` and
`now + 10h` (for `now = 0`), failure in the fourth league. -/
def upDates : String → LeagueResp := fun lid =>
  if lid = "eng.1" then .status 200 (some [evSched "10800"])
  else if lid = "uefa.champions" then .status 200 (some [evSched "-3600"])
  else if lid = "eng.league_cup" then .status 200 (some [evSched "36000"])
  else .status 404 none

/-- The record `format_fixture` produces for `evLive` in league 2. -/
def fxLiveRec : FixtureRecord :=
  ⟨⟨"Chelsea", "hlogo"⟩, ⟨"Arsenal", ""⟩, "1 - 0", "60:00\x27 2H", true,
   "Champions League", none⟩

/-- The record `format_fixture` produces for `evSched d` (decimal date)
under `pd0`/`fd0`. -/
def fxSchedRec (d : Int) (league : String) : FixtureRecord :=
  ⟨⟨"Chelsea", "hlogo"⟩, ⟨"Arsenal", ""⟩, "1 - 0", "15 Mar 14:00", false,
   league, some d⟩

/-- A cached fixture that is dormant on day 0 (match on day 40, no live or
finished indicator in its status text). -/
def fxDorm : FixtureRecord :=
  ⟨⟨"Chelsea", ""⟩, ⟨"Arsenal", ""⟩, "0 - 0", "14 Mar 12:00", false,
   "Premier League", some (40 * 86400)⟩

/-- A cached fixture whose match falls on day 0 (game day, not live). -/
def fxToday : FixtureRecord :=
  ⟨⟨"Chelsea", ""⟩, ⟨"Arsenal", ""⟩, "0 - 0", "01 Jan 20:00", false,
   "Premier League", some 100⟩

/-- A poller state on day 0 with the dormant cache and no prior fetch. -/
def s0 : PollerState := ⟨none, some fxDorm, 0, some 0⟩

/-- A same-day dormant state whose daily quota is exhausted. -/
def sQ : PollerState := ⟨some 0, some fxDorm, 5, some 0⟩

/-- A dormant state whose last fetch was at 23:00 of day 0 (count 3); a
call at 00:30 of day 1 is blocked yet crosses the day boundary. -/
def sRoll : PollerState := ⟨some 82800, some fxDorm, 3, some 0⟩

/-- Six poll attempts on day 0 against an always-raising upstream, spaced
17280 s apart except the last (17270 s). -/
def evts0 : List (Int × (String → LeagueResp)) :=
  [(1000, uExc), (18280, uExc), (35560, uExc), (52840, uExc),
   (70120, uExc), (86000, uExc)]

/-! ## Structural lemmas about the poller -/

theorem resetState_cached (s : PollerState) (now : Int) :
    (resetState s now).cached_fixture = s.cached_fixture := by
  unfold resetState; split <;> rfl

theorem resetState_lft (s : PollerState) (now : Int) :
    (resetState s now).last_fetch_time = s.last_fetch_time := by
  unfold resetState; split <;> rfl

theorem resetState_date (s : PollerState) (now : Int) :
    (resetState s now).last_fetch_date = some (dateOf now) := by
  unfold resetState; split
  · next h => exact h
  · rfl

theorem resetState_self (s : PollerState) (now : Int)
    (h : s.last_fetch_date = some (dateOf now)) : resetState s now = s := by
  unfold resetState; simp [h]

theorem resetState_idem (s : PollerState) (now : Int) :
    resetState (resetState s now) now = resetState s now :=
  resetState_self _ _ (resetState_date s now)

theorem elapsedLt_reset (s : PollerState) (now b : Int) :
    elapsedLt (resetState s now) now b = elapsedLt s now b := by
  unfold elapsedLt; rw [resetState_lft]

theorem should_fetch_snd (s : PollerState) (now : Int) :
    (should_fetch s now).2 = resetState s now := rfl

theorem should_fetch_fst (s : PollerState) (now : Int) :
    (should_fetch s now).1 = sfDecide (resetState s now) now := rfl

theorem should_fetch_reset (s : PollerState) (now : Int) :
    should_fetch (resetState s now) now = should_fetch s now := by
  unfold should_fetch
  rw [resetState_idem]

theorem get_next_of_false (pd : String → Option Int) (fd : Int → String)
    (u : String → LeagueResp) (s : PollerState) (now : Int)
    (h : (should_fetch s now).1 = false) :
    get_next_or_live_fixture pd fd u s now =
      ((resetState s now).cached_fixture, resetState s now) := by
  unfold get_next_or_live_fixture
  rw [h, should_fetch_snd]
  rfl

theorem get_next_state_of_true (pd : String → Option Int) (fd : Int → String)
    (u : String → LeagueResp) (s : PollerState) (now : Int)
    (h : (should_fetch s now).1 = true) :
    (get_next_or_live_fixture pd fd u s now).2.fetch_count_today
        = (resetState s now).fetch_count_today + 1
    ∧ (get_next_or_live_fixture pd fd u s now).2.last_fetch_date
        = (resetState s now).last_fetch_date
    ∧ (get_next_or_live_fixture pd fd u s now).2.last_fetch_time = some now := by
  unfold get_next_or_live_fixture
  rw [h, should_fetch_snd, if_pos rfl]
  split
  · exact ⟨rfl, rfl, rfl⟩
  · split
    · exact ⟨rfl, rfl, rfl⟩
    · exact ⟨rfl, rfl, rfl⟩

theorem get_next_cache (pd : String → Option Int) (fd : Int → String)
    (u : String → LeagueResp) (s : PollerState) (now : Int) :
    (get_next_or_live_fixture pd fd u s now).2.cached_fixture = s.cached_fixture
    ∨ ∃ g, (get_next_or_live_fixture pd fd u s now).2.cached_fixture = some g
        ∧ (get_next_or_live_fixture pd fd u s now).1 = some g := by
  cases h : (should_fetch s now).1 with
  | false =>
    rw [get_next_of_false pd fd u s now h]
    exact Or.inl (resetState_cached s now)
  | true =>
    unfold get_next_or_live_fixture
    rw [h, should_fetch_snd, if_pos rfl]
    split
    · exact Or.inl (resetState_cached s now)
    · split
      · next sel _ => exact Or.inr ⟨sel, rfl, rfl⟩
      · exact Or.inl (resetState_cached s now)

/-! ## Decision lemmas for `should_fetch` -/

theorem sf_no_cache (s : PollerState) (now : Int)
    (h : s.cached_fixture = none) : (should_fetch s now).1 = true := by
  rw [should_fetch_fst]
  unfold sfDecide
  rw [resetState_cached, h]

theorem sf_active (s : PollerState) (now : Int) (fx : FixtureRecord)
    (hca : s.cached_fixture = some fx)
    (hact : (fx.is_live || is_game_day fx now) = true) :
    (should_fetch s now).1 = !(elapsedLt s now 60) := by
  rw [should_fetch_fst]
  unfold sfDecide
  rw [resetState_cached, hca]
  simp only [hact, if_true, elapsedLt_reset]

theorem sf_dormant (s : PollerState) (now : Int) (fx : FixtureRecord)
    (hca : s.cached_fixture = some fx)
    (h1 : fx.is_live = false) (h2 : is_game_day fx now = false) :
    (should_fetch s now).1 =
      (decide ((resetState s now).fetch_count_today < 5)
        && !(elapsedLt s now 17280)) := by
  rw [should_fetch_fst]
  unfold sfDecide
  rw [resetState_cached, hca]
  simp only [h1, h2, Bool.or_false, Bool.false_eq_true, if_false, elapsedLt_reset]
  split
  · next hq => simp [Nat.not_lt.mpr hq]
  · next hq =>
    have hlt : (resetState s now).fetch_count_today < 5 := Nat.lt_of_not_le hq
    simp [hlt]

theorem collect_of_all_failed (pd : String → Option Int) (fd : Int → String)
    (u : String → LeagueResp) :
    ∀ L : List (String × String), (∀ p ∈ L, failedResp (u p.1) = true) →
      collectFixtures pd fd u L = .error () ∨ collectFixtures pd fd u L = .ok [] := by
  intro L
  induction L with
  | nil => intro _; exact Or.inr rfl
  | cons p rest ih =>
    intro h
    obtain ⟨lid, lname⟩ := p
    have hp : failedResp (u lid) = true := h _ (List.mem_cons_self _ _)
    have hrest := ih (fun q hq => h q (List.mem_cons_of_mem _ hq))
    unfold collectFixtures
    split
    · exact Or.inl rfl
    · next code ne heq =>
      have hcode : code ≠ 200 := by
        rw [heq] at hp
        simpa [failedResp] using hp
      rw [if_pos hcode]
      exact hrest

/-- C1: the poller's caller-facing call is total (it is a Lean function on
every state and upstream behaviour), and when the upstream exchange fails
for every configured competition — an exception or a non-2xx response per
league — `get_next_or_live_fixture` returns exactly the previous
`cached_fixture` value (possibly absent) and leaves the cache untouched. -/
theorem c1_graceful_degradation (pd : String → Option Int) (fd : Int → String)
    (u : String → LeagueResp) (s : PollerState) (now : Int)
    (hfail : ∀ p ∈ leagues, failedResp (u p.1) = true) :
    (get_next_or_live_fixture pd fd u s now).1 = s.cached_fixture
    ∧ (get_next_or_live_fixture pd fd u s now).2.cached_fixture
        = s.cached_fixture := by
  cases h : (should_fetch s now).1 with
  | false =>
    rw [get_next_of_false pd fd u s now h]
    exact ⟨resetState_cached s now, resetState_cached s now⟩
  | true =>
    unfold get_next_or_live_fixture
    rw [h, should_fetch_snd, if_pos rfl]
    rcases collect_of_all_failed pd fd u leagues hfail with hc | hc <;> rw [hc]
    · exact ⟨resetState_cached s now, resetState_cached s now⟩
    · exact ⟨resetState_cached s now, resetState_cached s now⟩

theorem c1_witness :
    (get_next_or_live_fixture pd0 fd0 uExc
        ⟨some 100, some fxDorm, 2, some 0⟩ 30000).1 = some fxDorm
    ∧ (get_next_or_live_fixture pd0 fd0 uExc
        ⟨some 100, some fxDorm, 2, some 0⟩ 30000).2.cached_fixture
        = some fxDorm :=
  c1_graceful_degradation pd0 fd0 uExc ⟨some 100, some fxDorm, 2, some 0⟩ 30000
    (by decide)

/-- C3: the web endpoint `get_football_fixture` constructs a brand-new
`FootballFixtures` instance for every request, so each request runs the
poller on the freshly initialised `PollerState`; in particular
`should_fetch` passes on every request, so the cache and rate-limit
counters never carry over between requests (refuting the claimed
cross-request persistence). -/
theorem c3_endpoint_fresh_state (pd : String → Option Int) (fd : Int → String)
    (u u' : String → LeagueResp) (now now' : Int) :
    get_football_fixture pd fd u now
      = get_next_or_live_fixture pd fd u initState now
    ∧ (should_fetch initState now).1 = true
    ∧ get_football_fixture pd fd u' now'
      = get_next_or_live_fixture pd fd u' initState now' :=
  ⟨rfl, sf_no_cache initState now rfl, rfl⟩

/-- C4: with an active cached fixture (live, or today's match, or a
live/finished status indicator), `should_fetch` blocks exactly when a
prior fetch exists and strictly less than 60 seconds have elapsed (the
call then returns the cached object), passes once at least 60 seconds
have elapsed, and passes when no prior fetch exists. -/
theorem c4_active_rate_gate (pd : String → Option Int) (fd : Int → String)
    (u : String → LeagueResp) (s : PollerState) (now : Int) (fx : FixtureRecord)
    (hca : s.cached_fixture = some fx)
    (hact : fx.is_live = true ∨ is_game_day fx now = true) :
    (∀ t, s.last_fetch_time = some t → now - t < 60 →
      (should_fetch s now).1 = false
      ∧ get_next_or_live_fixture pd fd u s now
          = (s.cached_fixture, resetState s now))
    ∧ (∀ t, s.last_fetch_time = some t → 60 ≤ now - t →
        (should_fetch s now).1 = true)
    ∧ (s.last_fetch_time = none → (should_fetch s now).1 = true) := by
  have hor : (fx.is_live || is_game_day fx now) = true := by
    rcases hact with h | h <;> simp [h]
  have hsf := sf_active s now fx hca hor
  refine ⟨?_, ?_, ?_⟩
  · intro t ht hlt
    have he : elapsedLt s now 60 = true := by
      unfold elapsedLt
      rw [ht]
      simpa using hlt
    have hfalse : (should_fetch s now).1 = false := by rw [hsf, he]; rfl
    refine ⟨hfalse, ?_⟩
    rw [get_next_of_false pd fd u s now hfalse, resetState_cached]
  · intro t ht hge
    have he : elapsedLt s now 60 = false := by
      unfold elapsedLt
      rw [ht]
      simpa using Int.not_lt.mpr hge
    rw [hsf, he]
    rfl
  · intro ht
    have he : elapsedLt s now 60 = false := by
      unfold elapsedLt
      rw [ht]
    rw [hsf, he]
    rfl

theorem c4_witness :
    (should_fetch ⟨some 29970, some fxToday, 2, some 0⟩ 30000).1 = false
    ∧ get_next_or_live_fixture pd0 fd0 uExc
        ⟨some 29970, some fxToday, 2, some 0⟩ 30000
      = (some fxToday, resetState ⟨some 29970, some fxToday, 2, some 0⟩ 30000) :=
  (c4_active_rate_gate pd0 fd0 uExc ⟨some 29970, some fxToday, 2, some 0⟩
      30000 fxToday rfl (Or.inr (by decide))).1 29970 rfl (by decide)

/-- C5: with a dormant cached fixture and `fetch_count_today` below 5,
`should_fetch` blocks exactly when a prior fetch exists and strictly less
than 4 h 48 min (17280 s) have elapsed (the call then returns the cached
object), and passes once at least 17280 s have elapsed. -/
theorem c5_dormant_rate_gate (pd : String → Option Int) (fd : Int → String)
    (u : String → LeagueResp) (s : PollerState) (now : Int) (fx : FixtureRecord)
    (hca : s.cached_fixture = some fx)
    (h1 : fx.is_live = false) (h2 : is_game_day fx now = false)
    (hq : s.fetch_count_today < 5) :
    (∀ t, s.last_fetch_time = some t → now - t < 17280 →
      (should_fetch s now).1 = false
      ∧ get_next_or_live_fixture pd fd u s now
          = (s.cached_fixture, resetState s now))
    ∧ (∀ t, s.last_fetch_time = some t → 17280 ≤ now - t →
        (should_fetch s now).1 = true) := by
  have hsf := sf_dormant s now fx hca h1 h2
  have hq' : (resetState s now).fetch_count_today < 5 := by
    unfold resetState
    split
    · exact hq
    · exact Nat.zero_lt_succ 4
  refine ⟨?_, ?_⟩
  · intro t ht hlt
    have he : elapsedLt s now 17280 = true := by
      unfold elapsedLt
      rw [ht]
      simpa using hlt
    have hfalse : (should_fetch s now).1 = false := by
      rw [hsf, he]
      simp
    refine ⟨hfalse, ?_⟩
    rw [get_next_of_false pd fd u s now hfalse, resetState_cached]
  · intro t ht hge
    have he : elapsedLt s now 17280 = false := by
      unfold elapsedLt
      rw [ht]
      simpa using Int.not_lt.mpr hge
    rw [hsf, he]
    simp [hq']

theorem c5_witness :
    (should_fetch ⟨some 0, some fxDorm, 3, some 0⟩ 7200).1 = false
    ∧ get_next_or_live_fixture pd0 fd0 uExc ⟨some 0, some fxDorm, 3, some 0⟩ 7200
      = (some fxDorm, resetState ⟨some 0, some fxDorm, 3, some 0⟩ 7200) :=
  (c5_dormant_rate_gate pd0 fd0 uExc ⟨some 0, some fxDorm, 3, some 0⟩ 7200 fxDorm
      rfl rfl (by decide) (by decide)).1 0 rfl (by decide)

/-- C6: on every `should_fetch` evaluation whose wall-clock date differs
from the stored `last_fetch_date`, the returned state has
`fetch_count_today` reset to 0 and `last_fetch_date` set to today, and the
decision is the one taken on the already-reset state (the reset precedes
the quota check). -/
theorem c6_day_rollover (s : PollerState) (now : Int)
    (h : s.last_fetch_date ≠ some (dateOf now)) :
    (should_fetch s now).2.fetch_count_today = 0
    ∧ (should_fetch s now).2.last_fetch_date = some (dateOf now)
    ∧ (should_fetch s now).1 =
        (should_fetch { s with fetch_count_today := 0,
                               last_fetch_date := some (dateOf now) } now).1 := by
  have hr : resetState s now
      = { s with fetch_count_today := 0, last_fetch_date := some (dateOf now) } := by
    unfold resetState
    rw [if_neg h]
  refine ⟨?_, ?_, ?_⟩
  · rw [should_fetch_snd, hr]
  · rw [should_fetch_snd, hr]
  · conv_lhs => rw [← should_fetch_reset s now]
    rw [hr]

theorem c6_witness :
    (should_fetch ⟨some 82800, some fxDorm, 7, some 0⟩ 136400).2.fetch_count_today = 0
    ∧ (should_fetch ⟨some 82800, some fxDorm, 7, some 0⟩ 136400).2.last_fetch_date
        = some (dateOf 136400)
    ∧ (should_fetch ⟨some 82800, some fxDorm, 7, some 0⟩ 136400).1 =
        (should_fetch ⟨some 82800, some fxDorm, 0, some (dateOf 136400)⟩ 136400).1 :=
  c6_day_rollover ⟨some 82800, some fxDorm, 7, some 0⟩ 136400 (by decide)

/-! ## Daily quota (C2) -/

theorem dormantAt_spec (s : PollerState) (now : Int)
    (h : dormantAt s now = true) :
    ∃ fx, s.cached_fixture = some fx ∧ fx.is_live = false
      ∧ is_game_day fx now = false := by
  unfold dormantAt at h
  cases hc : s.cached_fixture with
  | none => rw [hc] at h; exact absurd h (by simp)
  | some fx =>
    rw [hc] at h
    simp only [Bool.and_eq_true, Bool.not_eq_true'] at h
    exact ⟨fx, rfl, h.1, h.2⟩

theorem sf_dormant_block (s : PollerState) (now : Int)
    (hday : s.last_fetch_date = some (dateOf now))
    (hdorm : dormantAt s now = true)
    (hq : 5 ≤ s.fetch_count_today) :
    (should_fetch s now).1 = false := by
  obtain ⟨fx, hca, h1, h2⟩ := dormantAt_spec s now hdorm
  rw [sf_dormant s now fx hca h1 h2, resetState_self s now hday]
  simp [Nat.not_lt.mpr hq]

theorem sf_dormant_count_lt (s : PollerState) (now : Int)
    (hday : s.last_fetch_date = some (dateOf now))
    (hdorm : dormantAt s now = true)
    (ht : (should_fetch s now).1 = true) :
    s.fetch_count_today < 5 := by
  by_contra h
  rw [sf_dormant_block s now hday hdorm (Nat.le_of_not_lt h)] at ht
  exact Bool.false_ne_true ht

theorem get_next_reset (pd : String → Option Int) (fd : Int → String)
    (u : String → LeagueResp) (s : PollerState) (now : Int) :
    get_next_or_live_fixture pd fd u (resetState s now) now
      = get_next_or_live_fixture pd fd u s now := by
  unfold get_next_or_live_fixture
  rw [should_fetch_reset]

theorem dormantAt_reset (s : PollerState) (now : Int) :
    dormantAt (resetState s now) now = dormantAt s now := by
  unfold dormantAt
  rw [resetState_cached]

theorem countFetches_reset (pd : String → Option Int) (fd : Int → String)
    (now : Int) (u : String → LeagueResp)
    (rest : List (Int × (String → LeagueResp))) (s : PollerState) :
    countFetches pd fd ((now, u) :: rest) (resetState s now)
      = countFetches pd fd ((now, u) :: rest) s := by
  unfold countFetches
  rw [should_fetch_reset, get_next_reset]

theorem dormantTrace_reset (pd : String → Option Int) (fd : Int → String)
    (now : Int) (u : String → LeagueResp)
    (rest : List (Int × (String → LeagueResp))) (s : PollerState) :
    dormantTrace pd fd ((now, u) :: rest) (resetState s now)
      = dormantTrace pd fd ((now, u) :: rest) s := by
  unfold dormantTrace
  rw [dormantAt_reset, get_next_reset]

theorem quota_aux_hi (pd : String → Option Int) (fd : Int → String) (d : Int) :
    ∀ (events : List (Int × (String → LeagueResp))) (s : PollerState),
      (∀ e ∈ events, dateOf e.1 = d) → dormantTrace pd fd events s = true →
      s.last_fetch_date = some d → 5 ≤ s.fetch_count_today →
      countFetches pd fd events s = 0 := by
  intro events
  induction events with
  | nil => intro s _ _ _ _; rfl
  | cons e rest ih =>
    intro s hd ht hdate hq
    obtain ⟨now, u⟩ := e
    have hnow : dateOf now = d := hd _ (List.mem_cons_self _ _)
    unfold dormantTrace at ht
    simp only [Bool.and_eq_true] at ht
    obtain ⟨hdorm, htrest⟩ := ht
    have hday : s.last_fetch_date = some (dateOf now) := by rw [hnow]; exact hdate
    have hsf : (should_fetch s now).1 = false :=
      sf_dormant_block s now hday hdorm hq
    have hstate : (get_next_or_live_fixture pd fd u s now).2 = s := by
      rw [get_next_of_false pd fd u s now hsf]
      exact resetState_self s now hday
    rw [hstate] at htrest
    unfold countFetches
    rw [hsf, hstate]
    simpa using ih s (fun q hq' => hd q (List.mem_cons_of_mem _ hq')) htrest hdate hq

theorem quota_aux_lo (pd : String → Option Int) (fd : Int → String) (d : Int) :
    ∀ (events : List (Int × (String → LeagueResp))) (s : PollerState),
      (∀ e ∈ events, dateOf e.1 = d) → dormantTrace pd fd events s = true →
      s.last_fetch_date = some d → s.fetch_count_today ≤ 5 →
      countFetches pd fd events s + s.fetch_count_today ≤ 5 := by
  intro events
  induction events with
  | nil =>
    intro s _ _ _ hq
    unfold countFetches
    omega
  | cons e rest ih =>
    intro s hd ht hdate hq
    obtain ⟨now, u⟩ := e
    have hnow : dateOf now = d := hd _ (List.mem_cons_self _ _)
    unfold dormantTrace at ht
    simp only [Bool.and_eq_true] at ht
    obtain ⟨hdorm, htrest⟩ := ht
    have hday : s.last_fetch_date = some (dateOf now) := by rw [hnow]; exact hdate
    have hdtail : ∀ q ∈ rest, dateOf q.1 = d :=
      fun q hq' => hd q (List.mem_cons_of_mem _ hq')
    cases hsf : (should_fetch s now).1 with
    | false =>
      have hstate : (get_next_or_live_fixture pd fd u s now).2 = s := by
        rw [get_next_of_false pd fd u s now hsf]
        exact resetState_self s now hday
      rw [hstate] at htrest
      unfold countFetches
      rw [hsf, hstate]
      simpa using ih s hdtail htrest hdate hq
    | true =>
      have hlt : s.fetch_count_today < 5 :=
        sf_dormant_count_lt s now hday hdorm hsf
      obtain ⟨hcnt, hdate', _⟩ := get_next_state_of_true pd fd u s now hsf
      rw [resetState_self s now hday] at hcnt hdate'
      have hdate'' : (get_next_or_live_fixture pd fd u s now).2.last_fetch_date
          = some d := by rw [hdate', hdate]
      have hq' : (get_next_or_live_fixture pd fd u s now).2.fetch_count_today ≤ 5 := by
        omega
      have hrec := ih _ hdtail htrest hdate'' hq'
      unfold countFetches
      rw [hsf]
      simp only [if_true]
      omega

/-- C2: over any same-day trace of poll attempts during which the cached
fixture is present and dormant at every call, at most 5 calls actually
pass `should_fetch` (actual upstream fetch attempts); and once
`fetch_count_today` has reached 5 in a same-day dormant state,
`should_fetch` returns false regardless of elapsed time. -/
theorem c2_daily_quota (pd : String → Option Int) (fd : Int → String)
    (events : List (Int × (String → LeagueResp))) (s : PollerState) (d : Int)
    (sq : PollerState) (nowq : Int)
    (hd : ∀ e ∈ events, dateOf e.1 = d)
    (ht : dormantTrace pd fd events s = true)
    (hdayq : sq.last_fetch_date = some (dateOf nowq))
    (hdormq : dormantAt sq nowq = true)
    (hqq : 5 ≤ sq.fetch_count_today) :
    countFetches pd fd events s ≤ 5 ∧ (should_fetch sq nowq).1 = false := by
  refine ⟨?_, sf_dormant_block sq nowq hdayq hdormq hqq⟩
  cases events with
  | nil => simp [countFetches]
  | cons e rest =>
    obtain ⟨now, u⟩ := e
    have hnow : dateOf now = d := hd _ (List.mem_cons_self _ _)
    by_cases hdate : s.last_fetch_date = some d
    · rcases Nat.le_total s.fetch_count_today 5 with hle | hge
      · have := quota_aux_lo pd fd d ((now, u) :: rest) s hd ht hdate hle
        omega
      · have := quota_aux_hi pd fd d ((now, u) :: rest) s hd ht hdate hge
        omega
    · have hne : s.last_fetch_date ≠ some (dateOf now) := by
        rw [hnow]; exact hdate
      rw [← countFetches_reset pd fd now u rest s]
      rw [← dormantTrace_reset pd fd now u rest s] at ht
      have hdate1 : (resetState s now).last_fetch_date = some d := by
        rw [resetState_date, hnow]
      have hcnt1 : (resetState s now).fetch_count_today = 0 := by
        unfold resetState
        rw [if_neg hne]
      have := quota_aux_lo pd fd d ((now, u) :: rest) (resetState s now) hd ht
        hdate1 (by omega)
      omega

theorem c2_witness :
    countFetches pd0 fd0 evts0 s0 ≤ 5 ∧ (should_fetch sQ 70000).1 = false :=
  c2_daily_quota pd0 fd0 evts0 s0 0 sQ 70000 (by decide) (by decide) rfl
    (by decide) (by decide)

/-! ## status_display ladder (C9) -/

theorem format_fixture_status (pd : String → Option Int) (fd : Int → String)
    (lg : String) (ev : Event) (c : Competition) (cs : List Competition)
    (hev : ev.competitions = some (c :: cs))
    (hlen : 2 ≤ (c.competitors.getD []).length) :
    (format_fixture pd fd ev lg).map (·.status)
      = some (statusAndDate pd fd c).2 := by
  have h2 : ¬ (c.competitors.getD []).length < 2 := Nat.not_lt.mpr hlen
  simp only [format_fixture, hev, h2, if_false, Option.map_some']

/-- C9 (counterexample): in `_format_fixture` the period-based clock
branches precede the halftime branch, so a halftime event whose `period`
is 1 (as ESPN reports at halftime of the first half's end) is formatted
with the live clock, not "HT". -/
theorem c9_halftime_counterexample :
    statusName compHT = "STATUS_HALFTIME"
    ∧ periodOf compHT = 1
    ∧ (format_fixture pd0 fd0 evHT "Premier League").map (·.status)
        = some "45:00\x27 1H"
    ∧ (format_fixture pd0 fd0 evHT "Premier League").map (·.status)
        ≠ some "HT" := by
  refine ⟨rfl, rfl, ?_, ?_⟩ <;> decide

/-- C9 (amended): `status_display` is built by priority — the live
clock-based format when a period of 1 or 2 is reported (this takes
precedence even at halftime), "HT" for halftime with any other period,
"FT" for finished, else the parsed date/time rendering for a parseable
date, else the raw upstream status text when non-empty, else
"Scheduled" (both for an unparseable date string and for an absent or
empty date); a malformed date never fails the record. -/
theorem c9_status_ladder (pd : String → Option Int) (fd : Int → String)
    (lg : String) (ev : Event) (c : Competition) (cs : List Competition)
    (hev : ev.competitions = some (c :: cs))
    (hlen : 2 ≤ (c.competitors.getD []).length) :
    (statusName c = "STATUS_HALFTIME" → periodOf c ≠ 1 → periodOf c ≠ 2 →
      (format_fixture pd fd ev lg).map (·.status) = some "HT")
    ∧ (isLiveName (statusName c) = true → periodOf c = 1 →
      (format_fixture pd fd ev lg).map (·.status)
        = some (displayClockOf c ++ "\x27 1H"))
    ∧ (isLiveName (statusName c) = true → periodOf c = 2 →
      (format_fixture pd fd ev lg).map (·.status)
        = some (displayClockOf c ++ "\x27 2H"))
    ∧ (statusName c = "STATUS_FINAL" →
      (format_fixture pd fd ev lg).map (·.status) = some "FT")
    ∧ (isLiveName (statusName c) = false → statusName c ≠ "STATUS_FINAL" →
       ∀ ds dt, c.date = some ds → ds ≠ "" → pd ds = some dt →
      (format_fixture pd fd ev lg).map (·.status) = some (fd dt))
    ∧ (isLiveName (statusName c) = false → statusName c ≠ "STATUS_FINAL" →
       ∀ ds, c.date = some ds → ds ≠ "" → pd ds = none →
      (format_fixture pd fd ev lg).map (·.status)
        = some (if shortDetailOf c ≠ "" then shortDetailOf c else "Scheduled"))
    ∧ (isLiveName (statusName c) = false → statusName c ≠ "STATUS_FINAL" →
       c.date.getD "" = "" →
      (format_fixture pd fd ev lg).map (·.status)
        = some (if shortDetailOf c ≠ "" then shortDetailOf c else "Scheduled")) := by
  have hred := format_fixture_status pd fd lg ev c cs hev hlen
  refine ⟨?_, ?_, ?_, ?_, ?_, ?_, ?_⟩
  · intro hst h1 h2
    have hl : isLiveName (statusName c) = true := by rw [hst]; rfl
    rw [hred]
    unfold statusAndDate
    rw [hl, if_pos rfl, if_neg h1, if_neg h2, if_pos hst]
  · intro hl h1
    rw [hred]
    unfold statusAndDate
    rw [hl, if_pos rfl, if_pos h1]
  · intro hl h2
    have h1 : periodOf c ≠ 1 := by rw [h2]; decide
    rw [hred]
    unfold statusAndDate
    rw [hl, if_pos rfl, if_neg h1, if_pos h2]
  · intro hst
    have hl : isLiveName (statusName c) = false := by rw [hst]; rfl
    rw [hred]
    unfold statusAndDate
    rw [hl]
    simp only [Bool.false_eq_true, if_false]
    rw [if_pos hst]
  · intro hl hst ds dt hds hne hpd
    rw [hred]
    unfold statusAndDate
    rw [hl]
    simp only [Bool.false_eq_true, if_false]
    rw [if_neg hst, hds]
    simp only [Option.getD_some]
    rw [if_pos hne, hpd]
  · intro hl hst ds hds hne hpd
    rw [hred]
    unfold statusAndDate
    rw [hl]
    simp only [Bool.false_eq_true, if_false]
    rw [if_neg hst, hds]
    simp only [Option.getD_some]
    rw [if_pos hne, hpd]
  · intro hl hst hdate
    rw [hred]
    unfold statusAndDate
    rw [hl]
    simp only [Bool.false_eq_true, if_false]
    rw [if_neg hst, hdate]
    simp

theorem c9_witness :
    (format_fixture pd0 fd0 evHT0 "Premier League").map (·.status) = some "HT"
    ∧ (format_fixture pd0 fd0 evLive "Champions League").map (·.status)
        = some "60:00\x27 2H"
    ∧ (format_fixture pd0 fd0 evBadDate "FA Cup").map (·.status) = some "TBD"
    ∧ (format_fixture pd0 fd0 evNoDate "FA Cup").map (·.status) = some "TBD" :=
  ⟨(c9_status_ladder pd0 fd0 "Premier League" evHT0 compHT0 [] rfl
      (by decide)).1 rfl (by decide) (by decide),
   (c9_status_ladder pd0 fd0 "Champions League" evLive compLive [] rfl
      (by decide)).2.2.1 rfl rfl,
   by
    have h := (c9_status_ladder pd0 fd0 "FA Cup" evBadDate compBadDate [] rfl
        (by decide)).2.2.2.2.2.1 rfl (by decide) "notadate" rfl (by decide)
      (by decide)
    simpa using h,
   by
    have h := (c9_status_ladder pd0 fd0 "FA Cup" evNoDate compNoDate [] rfl
        (by decide)).2.2.2.2.2.2 rfl (by decide) rfl
    simpa using h⟩

/-! ## Frame property on a disallowed fetch (C10) -/

/-- C10 (counterexample): a blocked call that crosses a day boundary does
mutate the poller state — the rollover reset zeroes `fetch_count_today`
and moves `last_fetch_date` — refuting "no side effects on the poller's
state" as stated. -/
theorem c10_counterexample :
    (should_fetch sRoll 88200).1 = false
    ∧ (get_next_or_live_fixture pd0 fd0 uExc sRoll 88200).2.fetch_count_today
        ≠ sRoll.fetch_count_today
    ∧ (get_next_or_live_fixture pd0 fd0 uExc sRoll 88200).2.last_fetch_date
        ≠ sRoll.last_fetch_date := by
  refine ⟨?_, ?_, ?_⟩ <;> decide

/-- C10 (amended): whenever `should_fetch` evaluates to false, the call
returns the existing `cached_fixture` unchanged, performs no upstream
call (the result does not depend on the upstream), and leaves
`cached_fixture` and `last_fetch_time` unchanged; `fetch_count_today` and
`last_fetch_date` may however be updated by the day-rollover reset, and
when no rollover occurs the whole state is unchanged.  Independently, the
cache is never partially updated: every poll either leaves
`cached_fixture` untouched or replaces it wholesale with the returned
record. -/
theorem c10_frame_on_block (pd : String → Option Int) (fd : Int → String)
    (u u' : String → LeagueResp) (s : PollerState) (now : Int)
    (hsf : (should_fetch s now).1 = false) :
    get_next_or_live_fixture pd fd u s now = (s.cached_fixture, resetState s now)
    ∧ (resetState s now).cached_fixture = s.cached_fixture
    ∧ (resetState s now).last_fetch_time = s.last_fetch_time
    ∧ get_next_or_live_fixture pd fd u s now
        = get_next_or_live_fixture pd fd u' s now
    ∧ (s.last_fetch_date = some (dateOf now) →
        get_next_or_live_fixture pd fd u s now = (s.cached_fixture, s))
    ∧ (∀ s2 now2,
        (get_next_or_live_fixture pd fd u s2 now2).2.cached_fixture
          = s2.cached_fixture
        ∨ ∃ g, (get_next_or_live_fixture pd fd u s2 now2).2.cached_fixture = some g
            ∧ (get_next_or_live_fixture pd fd u s2 now2).1 = some g) := by
  refine ⟨?_, resetState_cached s now, resetState_lft s now, ?_, ?_, ?_⟩
  · rw [get_next_of_false pd fd u s now hsf, resetState_cached]
  · rw [get_next_of_false pd fd u s now hsf, get_next_of_false pd fd u' s now hsf]
  · intro h
    rw [get_next_of_false pd fd u s now hsf, resetState_cached,
      resetState_self s now h]
  · intro s2 now2
    exact get_next_cache pd fd u s2 now2

theorem c10_witness :
    get_next_or_live_fixture pd0 fd0 uExc ⟨some 0, some fxDorm, 3, some 0⟩ 7200
      = (some fxDorm, ⟨some 0, some fxDorm, 3, some 0⟩) :=
  (c10_frame_on_block pd0 fd0 uExc uExc ⟨some 0, some fxDorm, 3, some 0⟩ 7200
    (by decide)).2.2.2.2.1 rfl

/-! ## Live-priority selection (C7) -/

theorem get_next_of_true_sel (pd : String → Option Int) (fd : Int → String)
    (u : String → LeagueResp) (s : PollerState) (now : Int)
    (l : List FixtureRecord) (sel : FixtureRecord)
    (hsf : (should_fetch s now).1 = true)
    (hcol : collectFixtures pd fd u leagues = .ok l)
    (hsel : selectFixture now l = some sel) :
    get_next_or_live_fixture pd fd u s now
      = (some sel, { postFetchState (resetState s now) now with
                     cached_fixture := some sel }) := by
  unfold get_next_or_live_fixture
  rw [hsf, should_fetch_snd, if_pos rfl]
  simp only [hcol, hsel]

/-- C7: whenever a fetch happens and the collected candidate list contains
at least one live fixture, the value returned and the value cached are
both the first live candidate in competition priority order (the head of
the live-filtered candidate list), and that candidate is live. -/
theorem c7_live_priority (pd : String → Option Int) (fd : Int → String)
    (u : String → LeagueResp) (s : PollerState) (now : Int)
    (l : List FixtureRecord) (f0 : FixtureRecord)
    (hsf : (should_fetch s now).1 = true)
    (hcol : collectFixtures pd fd u leagues = .ok l)
    (hmem : f0 ∈ l) (hlive : f0.is_live = true) :
    (get_next_or_live_fixture pd fd u s now).1
      = (l.filter (fun f => f.is_live)).head?
    ∧ (get_next_or_live_fixture pd fd u s now).2.cached_fixture
      = (l.filter (fun f => f.is_live)).head?
    ∧ ((l.filter (fun f => f.is_live)).head?.getD f0).is_live = true
    ∧ ((l.filter (fun f => f.is_live)).head?).isSome = true := by
  have hne : l.filter (fun f => f.is_live) ≠ [] := by
    intro h
    have hm : f0 ∈ l.filter (fun f => f.is_live) :=
      List.mem_filter.mpr ⟨hmem, hlive⟩
    rw [h] at hm
    exact List.not_mem_nil f0 hm
  cases hl : l with
  | nil =>
    rw [hl] at hmem
    exact absurd hmem (List.not_mem_nil f0)
  | cons a rest =>
    subst hl
    cases hf : (a :: rest).filter (fun f => f.is_live) with
    | nil => exact absurd hf hne
    | cons g gs =>
      have hglive : g.is_live = true := by
        have hm : g ∈ (a :: rest).filter (fun f => f.is_live) := by
          rw [hf]
          exact List.mem_cons_self g gs
        exact (List.mem_filter.mp hm).2
      have hsel : selectFixture now (a :: rest) = some g := by
        simp only [selectFixture, hf]
      rw [get_next_of_true_sel pd fd u s now (a :: rest) g hsf hcol hsel]
      exact ⟨rfl, rfl, hglive, rfl⟩

theorem c7_witness :
    (get_next_or_live_fixture pd0 fd0 upLive initState 0).1
      = (([fxSchedRec 10800 "Premier League", fxLiveRec]).filter
          (fun f => f.is_live)).head?
    ∧ (get_next_or_live_fixture pd0 fd0 upLive initState 0).2.cached_fixture
      = (([fxSchedRec 10800 "Premier League", fxLiveRec]).filter
          (fun f => f.is_live)).head?
    ∧ ((([fxSchedRec 10800 "Premier League", fxLiveRec]).filter
          (fun f => f.is_live)).head?.getD fxLiveRec).is_live = true
    ∧ ((([fxSchedRec 10800 "Premier League", fxLiveRec]).filter
          (fun f => f.is_live)).head?).isSome = true :=
  c7_live_priority pd0 fd0 upLive initState 0
    [fxSchedRec 10800 "Premier League", fxLiveRec] fxLiveRec rfl rfl
    (by decide) rfl

/-! ## Nearest-date selection (C8): properties of `pyMin` -/

theorem pyMin_mem {α : Type} (key : α → Nat) :
    ∀ (l : List α) (b : α), pyMin key b l = b ∨ pyMin key b l ∈ l := by
  intro l
  induction l with
  | nil => intro b; exact Or.inl rfl
  | cons y ys ih =>
    intro b
    unfold pyMin
    rcases ih (if key y < key b then y else b) with h | h
    · rw [h]
      split
      · exact Or.inr (List.mem_cons_self _ _)
      · exact Or.inl rfl
    · exact Or.inr (List.mem_cons_of_mem _ h)

theorem pyMin_le {α : Type} (key : α → Nat) :
    ∀ (l : List α) (b : α),
      key (pyMin key b l) ≤ key b ∧ ∀ z ∈ l, key (pyMin key b l) ≤ key z := by
  intro l
  induction l with
  | nil =>
    intro b
    exact ⟨Nat.le_refl _, fun z hz => absurd hz (List.not_mem_nil z)⟩
  | cons y ys ih =>
    intro b
    unfold pyMin
    obtain ⟨h1, h2⟩ := ih (if key y < key b then y else b)
    constructor
    · refine Nat.le_trans h1 ?_
      split
      · next h => exact Nat.le_of_lt h
      · exact Nat.le_refl _
    · intro z hz
      rcases List.mem_cons.mp hz with rfl | hz'
      · refine Nat.le_trans h1 ?_
        split
        · exact Nat.le_refl _
        · next h => exact Nat.le_of_not_lt h
      · exact h2 z hz'

theorem pyMin_first {α : Type} (key : α → Nat) :
    ∀ (l : List α) (b : α) (l₁ l₂ : List α) (h : α),
      b :: l = l₁ ++ h :: l₂ → key h = key (pyMin key b l) →
      pyMin key b l ∈ l₁ ++ [h] := by
  intro l
  induction l with
  | nil =>
    intro b l₁ l₂ h heq hk
    cases l₁ with
    | nil =>
      simp only [List.nil_append, List.cons.injEq] at heq
      obtain ⟨h1, _⟩ := heq
      subst h1
      simp [pyMin]
    | cons x xs =>
      simp only [List.cons_append, List.cons.injEq] at heq
      exact absurd heq.2 (by simp)
  | cons y ys ih =>
    intro b l₁ l₂ h heq hk
    unfold pyMin at hk ⊢
    cases l₁ with
    | nil =>
      simp only [List.nil_append, List.cons.injEq] at heq
      obtain ⟨h1, h2⟩ := heq
      subst h1
      by_cases hyb : key y < key b
      · exfalso
        have hle := (pyMin_le key ys (if key y < key b then y else b)).1
        rw [if_pos hyb] at hle
        rw [if_pos hyb] at hk
        omega
      · rw [if_neg hyb] at hk ⊢
        have hmem := ih b [] ys b rfl hk
        simpa using hmem
    | cons x xs =>
      simp only [List.cons_append, List.cons.injEq] at heq
      obtain ⟨h1, h2⟩ := heq
      subst h1
      by_cases hyb : key y < key b
      · rw [if_pos hyb] at hk ⊢
        have hmem := ih y xs l₂ h h2 hk
        exact List.mem_cons_of_mem _ hmem
      · rw [if_neg hyb] at hk ⊢
        cases xs with
        | nil =>
          simp only [List.nil_append, List.cons.injEq] at h2
          obtain ⟨h3, _⟩ := h2
          subst h3
          have hle := (pyMin_le key ys b).1
          have hb : key b = key (pyMin key b ys) := by omega
          have hmem := ih b [] ys b rfl hb
          simp only [List.nil_append, List.mem_singleton] at hmem
          rw [hmem]
          exact List.mem_cons_self _ _
        | cons x' xs' =>
          simp only [List.cons_append, List.cons.injEq] at h2
          obtain ⟨h3, h4⟩ := h2
          subst h3
          have hmem := ih b (b :: xs') l₂ h (by rw [h4]; rfl) hk
          simp only [List.cons_append, List.mem_cons] at hmem
          rcases hmem with h5 | h5
          · rw [h5]; exact List.mem_cons_self _ _
          · exact List.mem_cons_of_mem _ (List.mem_cons_of_mem _ (by simpa using h5))

/-- C8: whenever a fetch happens, the collected candidate list is
`f0 :: fs` and no candidate is live: if no candidate carries a date the
selected and cached fixture is `f0` (the first in competition priority
order); otherwise, writing the dated candidates in order as `w :: ws`,
the selected and cached fixture is `pyMin (fixKey now) w ws`, which
belongs to the dated candidates, has minimal absolute time difference
from `now` among them, and is the first candidate attaining that
minimum (any dated candidate with the same key is at or after it). -/
theorem c8_nearest_date (pd : String → Option Int) (fd : Int → String)
    (u : String → LeagueResp) (s : PollerState) (now : Int)
    (l : List FixtureRecord) (f0 : FixtureRecord) (fs : List FixtureRecord)
    (hsf : (should_fetch s now).1 = true)
    (hcol : collectFixtures pd fd u leagues = .ok l)
    (hl : l = f0 :: fs)
    (hnl : ∀ f ∈ l, f.is_live = false) :
    (l.filter (fun f => f.match_date.isSome) = [] →
      (get_next_or_live_fixture pd fd u s now).1 = some f0
      ∧ (get_next_or_live_fixture pd fd u s now).2.cached_fixture = some f0)
    ∧ (∀ w ws, l.filter (fun f => f.match_date.isSome) = w :: ws →
      (get_next_or_live_fixture pd fd u s now).1
        = some (pyMin (fixKey now) w ws)
      ∧ (get_next_or_live_fixture pd fd u s now).2.cached_fixture
        = some (pyMin (fixKey now) w ws)
      ∧ pyMin (fixKey now) w ws ∈ w :: ws
      ∧ (∀ g ∈ w :: ws, fixKey now (pyMin (fixKey now) w ws) ≤ fixKey now g)
      ∧ (∀ l₁ l₂ h, w :: ws = l₁ ++ h :: l₂ →
          fixKey now h = fixKey now (pyMin (fixKey now) w ws) →
          pyMin (fixKey now) w ws ∈ l₁ ++ [h])) := by
  subst hl
  have hlf : (f0 :: fs).filter (fun x => x.is_live) = [] := by
    rw [List.filter_eq_nil_iff]
    intro a ha
    rw [hnl a ha]
    exact Bool.false_ne_true
  constructor
  · intro hwd
    have hsel : selectFixture now (f0 :: fs) = some f0 := by
      simp only [selectFixture, hlf, hwd]
    rw [get_next_of_true_sel pd fd u s now (f0 :: fs) f0 hsf hcol hsel]
    exact ⟨rfl, rfl⟩
  · intro w ws hwd
    have hsel : selectFixture now (f0 :: fs)
        = some (pyMin (fixKey now) w ws) := by
      simp only [selectFixture, hlf, hwd]
    rw [get_next_of_true_sel pd fd u s now (f0 :: fs)
      (pyMin (fixKey now) w ws) hsf hcol hsel]
    refine ⟨rfl, rfl, ?_, ?_, ?_⟩
    · rcases pyMin_mem (fixKey now) ws w with h | h
      · rw [h]; exact List.mem_cons_self _ _
      · exact List.mem_cons_of_mem _ h
    · intro g hg
      rcases List.mem_cons.mp hg with rfl | hg'
      · exact (pyMin_le (fixKey now) ws g).1
      · exact (pyMin_le (fixKey now) ws w).2 g hg'
    · intro l₁ l₂ h heq hk
      exact pyMin_first (fixKey now) ws w l₁ l₂ h heq hk

theorem c8_witness :
    (get_next_or_live_fixture pd0 fd0 upDates initState 0).1
      = some (fxSchedRec (-3600) "Champions League")
    ∧ (get_next_or_live_fixture pd0 fd0 upDates initState 0).2.cached_fixture
      = some (fxSchedRec (-3600) "Champions League") := by
  have h := (c8_nearest_date pd0 fd0 upDates initState 0
      [fxSchedRec 10800 "Premier League", fxSchedRec (-3600) "Champions League",
       fxSchedRec 36000 "Carabao Cup"]
      (fxSchedRec 10800 "Premier League")
      [fxSchedRec (-3600) "Champions League", fxSchedRec 36000 "Carabao Cup"]
      rfl rfl rfl (by decide)).2
    (fxSchedRec 10800 "Premier League")
    [fxSchedRec (-3600) "Champions League", fxSchedRec 36000 "Carabao Cup"]
    (by decide)
  exact ⟨h.1.trans (by decide), h.2.1.trans (by decide)⟩

end FF
